import Mathlib

/-!
Shallow embedding of the offer-eligibility-api Go service.

Embedded source files:
  - internal/models/models.go          (data model)
  - internal/validation/validation.go  (ValidateOffer, ValidateTransaction, helpers)
  - internal/database/database.go      (UpsertOffer, InsertTransactions,
                                        GetActiveOffers, CountMatchingTransactions)
  - internal/service/service.go        (CreateTransactions, GetEligibleOffers)

Modelling conventions:
  - UTC instants are Unix seconds (`Int`).  All timestamps in the repository
    cross the boundary as RFC3339 "Z" strings at second granularity, are stored
    as such, and are compared with `<=` / `>=`; for such strings lexicographic
    order coincides with chronological order, so integer comparison is the
    faithful image of the SQL comparisons.  `time.AddDate(0, 0, -k)` on a UTC
    instant is exactly `k * 86400` seconds earlier.
  - A Go slice is `Option (List _)` where `none` is the nil slice (which
    `encoding/json` serializes as JSON null) and `some l` a non-nil slice;
    `append` on a nil slice yields a non-nil one.
  - The SQLite store is a record of the two tables; the PRIMARY KEY constraint
    on `offers.id` is carried as a `Nodup` hypothesis where a theorem needs it.
    The JSON round trip of `mcc_whitelist` through serialize/deserialize is the
    identity on lists of strings, so rows hold the list directly.
  - Fallible operations return `Except String` (the Go `error`); operations
    that in Go leave the store untouched on failure return the unchanged store.
-/

/-- UTC instant as Unix seconds. -/
abbrev GoTime := Int

/-- Unix seconds of Go's zero `time.Time` (0001-01-01T00:00:00Z); the model of
`Time.IsZero`. -/
def goZeroTime : GoTime := -62135596800

/-- Seconds in one UTC calendar day. -/
def secondsPerDay : Int := 86400

/-- Go `unicode.IsControl`: true exactly on the Latin-1 control ranges. -/
def goIsControl (c : Char) : Bool :=
  c.toNat < 0x20 || c.toNat == 0x7F || (0x80 ≤ c.toNat && c.toNat ≤ 0x9F)

/-- Go `unicode.IsSpace` (White_Space property). -/
def goIsSpace (c : Char) : Bool :=
  c == ' ' || c == '\t' || c == '\n' || c.toNat == 0x0B || c.toNat == 0x0C ||
  c == '\r' || c.toNat == 0x85 || c.toNat == 0xA0 || c.toNat == 0x1680 ||
  (0x2000 ≤ c.toNat && c.toNat ≤ 0x200A) || c.toNat == 0x2028 ||
  c.toNat == 0x2029 || c.toNat == 0x202F || c.toNat == 0x205F ||
  c.toNat == 0x3000

/-- The `strings.Map` step of `SanitizeString`: drop control characters except
newline, carriage return and tab. -/
def goStripControl (l : List Char) : List Char :=
  l.filter (fun c => !(goIsControl c) || c == '\n' || c == '\r' || c == '\t')

/-- Go `strings.TrimSpace` on a character list. -/
def goTrimSpace (l : List Char) : List Char :=
  ((l.dropWhile goIsSpace).reverse.dropWhile goIsSpace).reverse

/-- validation.SanitizeString: strip control characters, then trim whitespace. -/
def SanitizeString (s : String) : String :=
  ⟨goTrimSpace (goStripControl s.data)⟩

/-- Go `strings.ToLower` restricted to the alphabet the UUID regex can accept:
ASCII letters are lowered, everything else (whose Go lowercase is never an
ASCII hex digit) is left as is. -/
def goToLowerChar (c : Char) : Char :=
  if 'A' ≤ c && c ≤ 'Z' then Char.ofNat (c.toNat + 32) else c

/-- Go `strings.ToLower` on a whole string (see `goToLowerChar`). -/
def goToLower (s : String) : String := ⟨s.data.map goToLowerChar⟩

/-- Lowercase hexadecimal digit, the `[0-9a-f]` character class. -/
def isHexLower (c : Char) : Bool :=
  ('0' ≤ c && c ≤ '9') || ('a' ≤ c && c ≤ 'f')

/-- ASCII decimal digit, the regexp `\d` class. -/
def isDigitChar (c : Char) : Bool := '0' ≤ c && c ≤ '9'

/-- Character admitted at position `i` of the 36-character UUID v4 pattern
`[0-9a-f]{8}-[0-9a-f]{4}-4[0-9a-f]{3}-[89ab][0-9a-f]{3}-[0-9a-f]{12}`. -/
def uuidCharOk (i : Nat) (c : Char) : Bool :=
  if i == 8 || i == 13 || i == 18 || i == 23 then c == '-'
  else if i == 14 then c == '4'
  else if i == 19 then c == '8' || c == '9' || c == 'a' || c == 'b'
  else isHexLower c

/-- Anchored match of validation.go's `uuidRegex`. -/
def uuidRegexMatch (s : String) : Bool :=
  s.data.length == 36 && s.data.enum.all (fun p => uuidCharOk p.1 p.2)

/-- Anchored match of validation.go's `mccRegex`, the pattern `^\d{4}$`. -/
def mccRegexMatch (s : String) : Bool :=
  s.data.length == 4 && s.data.all isDigitChar

/-- validation.ValidationError: a field name plus a human message. -/
structure ValidationError where
  field : String
  message : String
deriving DecidableEq

/-- ASCII apostrophe, written via its code point. -/
def squote : String := String.singleton (Char.ofNat 39)

/-- ValidationError.Error(): the formatted error text. -/
def errorString (e : ValidationError) : String :=
  "validation error on field " ++ squote ++ e.field ++ squote ++ ": " ++ e.message

/-- models.Offer (created_at / updated_at are store-internal and never read by
any modelled operation, so they are omitted from the row). -/
structure Offer where
  ID : String
  MerchantID : String
  MCCWhitelist : List String
  Active : Bool
  MinTxnCount : Int
  LookbackDays : Int
  StartsAt : GoTime
  EndsAt : GoTime
deriving DecidableEq

/-- models.Transaction. -/
structure Transaction where
  ID : String
  UserID : String
  MerchantID : String
  MCC : String
  AmountCents : Int
  ApprovedAt : GoTime
deriving DecidableEq

/-- models.EligibleOffer. -/
structure EligibleOffer where
  OfferID : String
  Reason : String
deriving DecidableEq

/-- models.EligibleOffersResponse; `EligibleOffers` is a Go slice that may be
nil (`none`, serialized by encoding/json as JSON null). -/
structure EligibleOffersResponse where
  UserID : String
  EligibleOffers : Option (List EligibleOffer)
deriving DecidableEq

/-- Go `append` on a possibly-nil slice: appending to nil allocates. -/
def goAppend (s : Option (List α)) (x : α) : Option (List α) :=
  match s with
  | none => some [x]
  | some l => some (l ++ [x])

/-- The elements of a possibly-nil Go slice (nil iterates as empty). -/
def goElems (s : Option (List α)) : List α :=
  match s with
  | none => []
  | some l => l

/-- True exactly on `Except.error`. -/
def exceptIsError : Except ε α → Bool
  | Except.error _ => true
  | Except.ok _ => false

instance [DecidableEq ε] [DecidableEq α] : DecidableEq (Except ε α) := fun x y =>
  match x, y with
  | Except.error a, Except.error b =>
    if h : a = b then Decidable.isTrue (by rw [h])
    else Decidable.isFalse (by intro hc; cases hc; exact h rfl)
  | Except.error _, Except.ok _ => Decidable.isFalse (by intro hc; cases hc)
  | Except.ok _, Except.error _ => Decidable.isFalse (by intro hc; cases hc)
  | Except.ok a, Except.ok b =>
    if h : a = b then Decidable.isTrue (by rw [h])
    else Decidable.isFalse (by intro hc; cases hc; exact h rfl)

/-- validation.ValidateUUID: empty check on the raw string, then the v4 regex
on the sanitized, lowercased string. -/
def ValidateUUID (id fieldName : String) : Option ValidationError :=
  if id = "" then some ⟨fieldName, "is required"⟩
  else if uuidRegexMatch (goToLower (SanitizeString id)) then none
  else some ⟨fieldName, "must be a valid UUID v4"⟩

/-- validation.validateMCC: empty check, then the 4-digit pattern on the
sanitized string. -/
def validateMCC (mcc : String) : Option ValidationError :=
  if mcc = "" then some ⟨"mcc", "is required"⟩
  else if mccRegexMatch (SanitizeString mcc) then none
  else some ⟨"mcc", "must be a 4-digit numeric code"⟩

/-- The per-entry loop of validation.validateMCCWhitelist: `i` is the index,
`seen` the raw codes already accepted. -/
def validateMCCLoop : List String → Nat → List String → Option ValidationError
  | [], _, _ => none
  | mcc :: rest, i, seen =>
    match validateMCC mcc with
    | some err => some ⟨"mcc_whitelist[" ++ toString i ++ "]", errorString err⟩
    | none =>
      if mcc ∈ seen then
        some ⟨"mcc_whitelist", "duplicate MCC code: " ++ mcc⟩
      else
        validateMCCLoop rest (i + 1) (mcc :: seen)

/-- validation.validateMCCWhitelist. -/
def validateMCCWhitelist (mccList : List String) : Option ValidationError :=
  if mccList.length = 0 then none
  else if mccList.length > 100 then
    some ⟨"mcc_whitelist", "cannot contain more than 100 MCC codes"⟩
  else validateMCCLoop mccList 0 []

/-- The 2-year bound of ValidateOffer, `2 * 365 * 24 * time.Hour` in seconds. -/
def twoYearsSeconds : Int := 2 * 365 * 24 * 3600

/-- validation.ValidateOffer: the check chain in source order, first failure
wins. -/
def ValidateOffer (offer : Offer) : Option ValidationError :=
  match ValidateUUID offer.ID "id" with
  | some e => some e
  | none =>
    match ValidateUUID offer.MerchantID "merchant_id" with
    | some e => some e
    | none =>
      match validateMCCWhitelist offer.MCCWhitelist with
      | some e => some e
      | none =>
        if offer.MinTxnCount < 0 then
          some ⟨"min_txn_count", "must be non-negative"⟩
        else if offer.LookbackDays < 0 then
          some ⟨"lookback_days", "must be non-negative"⟩
        else if offer.LookbackDays > 365 then
          some ⟨"lookback_days", "cannot exceed 365 days"⟩
        else if offer.StartsAt = goZeroTime then
          some ⟨"starts_at", "is required"⟩
        else if offer.EndsAt = goZeroTime then
          some ⟨"ends_at", "is required"⟩
        else if ¬ (offer.StartsAt < offer.EndsAt) then
          some ⟨"starts_at", "must be before ends_at"⟩
        else if offer.EndsAt - offer.StartsAt > twoYearsSeconds then
          some ⟨"ends_at", "offer duration cannot exceed 2 years"⟩
        else none

/-- The ambient wall clock of validation.ValidateTransaction: `now` models
`time.Now()` and `tenYearsAgo` models `time.Now().AddDate(-10, 0, 0)` (a
calendar subtraction, hence a separate field rather than a fixed offset). -/
structure GoClock where
  now : GoTime
  tenYearsAgo : GoTime

/-- The transaction amount ceiling, `int64(100_000_000)` cents. -/
def maxAmountCents : Int := 100000000

/-- validation.ValidateTransaction: the check chain in source order. -/
def ValidateTransaction (clock : GoClock) (txn : Transaction) : Option ValidationError :=
  match ValidateUUID txn.ID "id" with
  | some e => some e
  | none =>
    match ValidateUUID txn.UserID "user_id" with
    | some e => some e
    | none =>
      match ValidateUUID txn.MerchantID "merchant_id" with
      | some e => some e
      | none =>
        match validateMCC txn.MCC with
        | some e => some e
        | none =>
          if txn.AmountCents < 0 then
            some ⟨"amount_cents", "must be non-negative"⟩
          else if txn.AmountCents > maxAmountCents then
            some ⟨"amount_cents", "exceeds maximum allowed amount"⟩
          else if txn.ApprovedAt = goZeroTime then
            some ⟨"approved_at", "is required"⟩
          else if txn.ApprovedAt > clock.now + 3600 then
            some ⟨"approved_at", "cannot be more than 1 hour in the future"⟩
          else if txn.ApprovedAt < clock.tenYearsAgo then
            some ⟨"approved_at", "cannot be more than 10 years in the past"⟩
          else none

/-- The SQLite store: the two tables, rows in insertion order. -/
structure DB where
  offers : List Offer
  transactions : List Transaction
deriving DecidableEq

/-- database.UpsertOffer: `INSERT ... ON CONFLICT(id) DO UPDATE` replaces every
field of the row keyed by `offer.ID`, or appends a fresh row. -/
def UpsertOffer (db : DB) (offer : Offer) : DB :=
  if db.offers.any (fun r => r.ID == offer.ID) then
    { db with offers := db.offers.map (fun r => if r.ID == offer.ID then offer else r) }
  else
    { db with offers := db.offers ++ [offer] }

/-- The insert loop of database.InsertTransactions inside the SQL transaction:
each row insert fails on a PRIMARY KEY collision with the rows already
present (committed rows and earlier rows of the same batch alike). -/
def insertTxnRows : List Transaction → List Transaction → Except String (List Transaction)
  | rows, [] => Except.ok rows
  | rows, t :: rest =>
    if rows.any (fun r => r.ID == t.ID) then
      Except.error ("failed to insert transaction " ++ t.ID)
    else insertTxnRows (rows ++ [t]) rest

/-- database.InsertTransactions: empty batch is a no-op returning 0; otherwise
all rows are inserted in one SQL transaction, rolled back entirely on the
first failure (the returned store is then unchanged). -/
def InsertTransactions (db : DB) (ts : List Transaction) : DB × Except String Nat :=
  if ts.length = 0 then (db, Except.ok 0)
  else
    match insertTxnRows db.transactions ts with
    | Except.error e => (db, Except.error e)
    | Except.ok rows => ({ db with transactions := rows }, Except.ok ts.length)

/-- database.GetActiveOffers: rows with `active = 1 AND starts_at <= now AND
ends_at >= now`. -/
def GetActiveOffers (db : DB) (now : GoTime) : List Offer :=
  db.offers.filter (fun o => o.Active && decide (o.StartsAt ≤ now) && decide (o.EndsAt ≥ now))

/-- database.CountMatchingTransactions: the window lower bound is
`now.AddDate(0, 0, -offer.LookbackDays)`; the `OR mcc IN (...)` clause is only
added to the query when the whitelist is non-empty. -/
def CountMatchingTransactions (db : DB) (userID : String) (offer : Offer) (now : GoTime) : Nat :=
  (db.transactions.filter (fun t =>
    t.UserID == userID &&
    decide (now - offer.LookbackDays * secondsPerDay ≤ t.ApprovedAt) &&
    decide (t.ApprovedAt ≤ now) &&
    (t.MerchantID == offer.MerchantID ||
      (!offer.MCCWhitelist.isEmpty && offer.MCCWhitelist.contains t.MCC)))).length

/-- The first failing validation of service.CreateTransactions, with the
`invalid transaction at index %d: %w` wrapping. -/
def firstInvalidTxn (clock : GoClock) : List Transaction → Nat → Option String
  | [], _ => none
  | t :: rest, i =>
    match ValidateTransaction clock t with
    | some e => some ("invalid transaction at index " ++ toString i ++ ": " ++ errorString e)
    | none => firstInvalidTxn clock rest (i + 1)

/-- service.CreateTransactions: size guards, then per-record validation, then
the batch insert; every failure leaves the store untouched. -/
def CreateTransactions (db : DB) (clock : GoClock) (ts : List Transaction) : DB × Except String Nat :=
  if ts.length = 0 then (db, Except.error "no transactions provided")
  else if ts.length > 1000 then
    (db, Except.error "cannot process more than 1000 transactions per request")
  else
    match firstInvalidTxn clock ts 0 with
    | some msg => (db, Except.error msg)
    | none => InsertTransactions db ts

/-- The `reason` string of service.GetEligibleOffers, from its Sprintf format
`>= %d matching transactions in last %d days (found %d)`. -/
def reasonString (minTxnCount lookbackDays : Int) (found : Nat) : String :=
  ">= " ++ toString minTxnCount ++ " matching transactions in last " ++
    toString lookbackDays ++ " days (found " ++ toString found ++ ")"

/-- The per-offer step of the loop in service.GetEligibleOffers: append the
verdict when `matchCount >= offer.MinTxnCount`, else keep the accumulator. -/
def eligStep (db : DB) (userID : String) (now : GoTime)
    (acc : Option (List EligibleOffer)) (offer : Offer) : Option (List EligibleOffer) :=
  let matchCount := CountMatchingTransactions db userID offer now
  if offer.MinTxnCount ≤ (matchCount : Int) then
    goAppend acc ⟨offer.ID, reasonString offer.MinTxnCount offer.LookbackDays matchCount⟩
  else acc

/-- service.GetEligibleOffers: validate the user id, fetch active offers, fold
the per-offer verdicts starting from the nil slice
(`var eligibleOffers []models.EligibleOffer`). -/
def GetEligibleOffers (db : DB) (userID : String) (now : GoTime) : Except String EligibleOffersResponse :=
  match ValidateUUID userID "user_id" with
  | some e => Except.error (errorString e)
  | none =>
    let activeOffers := GetActiveOffers db now
    let eligibleOffers := activeOffers.foldl (eligStep db userID now)
      (none : Option (List EligibleOffer))
    Except.ok ⟨userID, eligibleOffers⟩

/-- A well-formed UUID v4 used as a concrete user id. -/
def uuidU : String := "aaaaaaaa-aaaa-4aaa-8aaa-aaaaaaaaaaaa"

/-- A well-formed UUID v4 used as a concrete offer id. -/
def uuidO : String := "bbbbbbbb-bbbb-4bbb-8bbb-bbbbbbbbbbbb"

/-- A well-formed UUID v4 used as a concrete merchant id. -/
def uuidM : String := "cccccccc-cccc-4ccc-8ccc-cccccccccccc"

/-- A well-formed UUID v4 used as a concrete transaction id. -/
def uuidT : String := "dddddddd-dddd-4ddd-8ddd-dddddddddddd"

/-- Count prescribed by the spec sentence for `CountMatchingTransactions`:
same user, `approved_at` in the closed interval from `now` minus
`lookback_days` days to `now`, and merchant identity or whitelist membership
as a plain disjunction with no emptiness guard. -/
def specMatchingCount (db : DB) (userID : String) (offer : Offer) (now : GoTime) : Nat :=
  (db.transactions.filter (fun t =>
    t.UserID == userID &&
    decide (now - offer.LookbackDays * secondsPerDay ≤ t.ApprovedAt) &&
    decide (t.ApprovedAt ≤ now) &&
    (t.MerchantID == offer.MerchantID || offer.MCCWhitelist.contains t.MCC))).length

/-- The eligible-offer entry an active offer contributes, if any: the verdict
of one iteration of the loop in service.GetEligibleOffers. -/
def eligEntry (db : DB) (userID : String) (now : GoTime) (offer : Offer) : Option EligibleOffer :=
  let matchCount := CountMatchingTransactions db userID offer now
  if offer.MinTxnCount ≤ (matchCount : Int) then
    some ⟨offer.ID, reasonString offer.MinTxnCount offer.LookbackDays matchCount⟩
  else none

/-- A concrete active offer with a zero threshold. -/
def offerZ : Offer := ⟨uuidO, uuidM, [], true, 0, 30, 0, 1000⟩

/-- A concrete store holding only `offerZ` and no transactions. -/
def dbZ : DB := ⟨[offerZ], []⟩

/-- The response GetEligibleOffers computes on `dbZ` for `uuidU` at instant
500. -/
def respZ : EligibleOffersResponse :=
  ⟨uuidU, some [⟨uuidO, ">= 0 matching transactions in last 30 days (found 0)"⟩]⟩

/-- The spec's notion of a well-formed UUID v4, as checked by ValidateUUID:
non-empty and matching the v4 regex after sanitizing and lowercasing. -/
def uuidWellFormed (s : String) : Bool :=
  !(s == "") && uuidRegexMatch (goToLower (SanitizeString s))

/-- The spec's 4-digit-numeric MCC pattern as checked by validateMCC:
non-empty and matching the pattern after sanitizing. -/
def mccWellFormed (s : String) : Bool :=
  !(s == "") && mccRegexMatch (SanitizeString s)

/-- Claim C6's InvalidIdentifier condition. -/
def badIdentifier (o : Offer) : Bool :=
  !(uuidWellFormed o.ID) || !(uuidWellFormed o.MerchantID)

/-- Claim C6's InvalidWhitelist condition over a raw whitelist. -/
def badWhitelistList (wl : List String) : Bool :=
  wl.any (fun m => !(mccWellFormed m)) || decide (wl.length > 100) || !(decide wl.Nodup)

/-- Claim C6's InvalidWhitelist condition. -/
def badWhitelist (o : Offer) : Bool := badWhitelistList o.MCCWhitelist

/-- Claim C6's InvalidThreshold condition. -/
def badThreshold (o : Offer) : Bool :=
  decide (o.MinTxnCount < 0) || decide (o.LookbackDays < 0) || decide (o.LookbackDays > 365)

/-- Claim C6's InvalidWindow condition. -/
def badWindow (o : Offer) : Bool :=
  decide (o.StartsAt = goZeroTime) || decide (o.EndsAt = goZeroTime) ||
  !(decide (o.StartsAt < o.EndsAt)) || decide (o.EndsAt - o.StartsAt > twoYearsSeconds)

/-- C1: CountMatchingTransactions counts exactly the stored transactions of
the user whose `approved_at` lies in the closed window from `now` minus
`lookback_days` days to `now` (lower bound inclusive, nothing after `now`)
and which match by merchant identity or by whitelist membership; with an
empty whitelist only the merchant disjunct can match. -/
theorem countMatchingTransactions_spec (db : DB) (userID : String) (offer : Offer) (now : GoTime) :
    CountMatchingTransactions db userID offer now = specMatchingCount db userID offer now := by
  unfold CountMatchingTransactions specMatchingCount
  congr 1
  apply List.filter_congr
  intro t _
  cases offer.MCCWhitelist <;> simp

/-- Filter length is monotone under pointwise implication of predicates. -/
theorem filterLengthMono (p q : α → Bool) :
    ∀ l : List α, (∀ a ∈ l, p a = true → q a = true) →
      (l.filter p).length ≤ (l.filter q).length := by
  intro l
  induction l with
  | nil => intro _; exact Nat.le_refl 0
  | cons a t ih =>
    intro h
    have iht := ih (fun x hx => h x (List.mem_cons_of_mem a hx))
    rw [List.filter_cons, List.filter_cons]
    cases hp : p a with
    | true =>
      have hq := h a (List.mem_cons_self a t) hp
      rw [hq]
      simp only [List.length_cons, if_true]
      simp
      omega
    | false =>
      cases hq : q a with
      | true =>
        simp
        omega
      | false =>
        simpa using iht

/-- C7: for a fixed user, store and evaluation instant, the matching count is
monotonically non-decreasing in `lookback_days` between offers that differ
only in that field. -/
theorem countMatchingTransactions_mono (db : DB) (userID : String) (now : GoTime)
    (o1 o2 : Offer) (hm : o1.MerchantID = o2.MerchantID)
    (hw : o1.MCCWhitelist = o2.MCCWhitelist)
    (hk : o1.LookbackDays ≤ o2.LookbackDays) :
    CountMatchingTransactions db userID o1 now ≤ CountMatchingTransactions db userID o2 now := by
  unfold CountMatchingTransactions
  apply filterLengthMono
  intro t _ hp
  rw [← hm, ← hw]
  simp only [Bool.and_eq_true, decide_eq_true_eq, secondsPerDay] at hp ⊢
  obtain ⟨⟨⟨hu, hlo⟩, hhi⟩, hmatch⟩ := hp
  refine ⟨⟨⟨hu, ?_⟩, hhi⟩, hmatch⟩
  have hmul : o1.LookbackDays * 86400 ≤ o2.LookbackDays * 86400 :=
    mul_le_mul_of_nonneg_right hk (by norm_num)
  linarith

/-- Witness for C7 at a concrete store and offer pair. -/
theorem countMatchingTransactions_mono_witness :
    CountMatchingTransactions ⟨[], [⟨uuidT, uuidU, uuidM, "5812", 100, 50⟩]⟩ uuidU
        ⟨uuidO, uuidM, [], true, 0, 0, 0, 1000⟩ 100 ≤
      CountMatchingTransactions ⟨[], [⟨uuidT, uuidU, uuidM, "5812", 100, 50⟩]⟩ uuidU
        ⟨uuidO, uuidM, [], true, 0, 1, 0, 1000⟩ 100 :=
  countMatchingTransactions_mono _ _ _ _ _ rfl rfl (by decide)

/-- Replacing the row keyed by `o.ID` does not touch the rows with any other
key. -/
theorem mapReplaceFilterNe (o : Offer) :
    ∀ l : List Offer,
      (l.map (fun r => if r.ID == o.ID then o else r)).filter (fun r => !(r.ID == o.ID)) =
        l.filter (fun r => !(r.ID == o.ID)) := by
  intro l
  induction l with
  | nil => rfl
  | cons a t ih =>
    simp only [List.map_cons, List.filter_cons]
    by_cases h : a.ID = o.ID
    · simp only [beq_iff_eq] at ih ⊢
      simp [h, ih]
    · simp only [beq_iff_eq] at ih ⊢
      simp [h, ih]

/-- C10: UpsertOffer changes at most the offer row keyed by the upserted id:
every offer row with a different id is unchanged, and the transactions table
is unchanged. -/
theorem upsertOffer_frame (db : DB) (o : Offer) :
    (UpsertOffer db o).transactions = db.transactions ∧
      (UpsertOffer db o).offers.filter (fun r => !(r.ID == o.ID)) =
        db.offers.filter (fun r => !(r.ID == o.ID)) := by
  unfold UpsertOffer
  by_cases h : db.offers.any (fun r => r.ID == o.ID) = true
  · rw [if_pos h]
    exact ⟨rfl, mapReplaceFilterNe o db.offers⟩
  · rw [if_neg h]
    refine ⟨rfl, ?_⟩
    simp [List.filter_append]

/-- The batch insert loop fails whenever the batch has an internal duplicate
id or an id colliding with an existing row. -/
theorem insertTxnRowsError :
    ∀ (ts rows : List Transaction),
      (¬ (ts.map Transaction.ID).Nodup ∨ ∃ t ∈ ts, ∃ r ∈ rows, r.ID = t.ID) →
      ∃ e, insertTxnRows rows ts = Except.error e := by
  intro ts
  induction ts with
  | nil =>
    intro rows h
    rcases h with h | ⟨t, ht, _⟩
    · exact absurd List.nodup_nil h
    · exact absurd ht (List.not_mem_nil t)
  | cons t rest ih =>
    intro rows h
    unfold insertTxnRows
    by_cases hany : rows.any (fun r => r.ID == t.ID) = true
    · simp only [hany, if_true]
      exact ⟨_, rfl⟩
    · simp only [hany, if_false]
      apply ih
      rcases h with hnd | ⟨t', ht', r, hr, hid⟩
      · by_cases hmem : t.ID ∈ rest.map Transaction.ID
        · obtain ⟨t2, ht2, hid2⟩ := List.mem_map.mp hmem
          exact Or.inr ⟨t2, ht2, t, List.mem_append_right _ (List.mem_singleton.mpr rfl), hid2.symm⟩
        · refine Or.inl ?_
          intro hnd2
          exact hnd (List.nodup_cons.mpr ⟨hmem, hnd2⟩)
      · rcases List.mem_cons.mp ht' with rfl | hrest
        · exfalso
          apply hany
          exact List.any_eq_true.mpr ⟨r, hr, beq_iff_eq.mpr hid⟩
        · exact Or.inr ⟨t', hrest, r, List.mem_append_left _ hr, hid⟩

/-- C3: a batch with a duplicate transaction id (within the batch or against
storage) makes InsertTransactions fail with the store exactly as before; a
successful insert reports the batch size. -/
theorem insertTransactions_atomic (db : DB) (ts : List Transaction) :
    ((¬ (ts.map Transaction.ID).Nodup ∨ ∃ t ∈ ts, ∃ r ∈ db.transactions, r.ID = t.ID) →
        (InsertTransactions db ts).1 = db ∧
          exceptIsError (InsertTransactions db ts).2 = true) ∧
      (∀ n, (InsertTransactions db ts).2 = Except.ok n → n = ts.length) := by
  constructor
  · intro h
    obtain ⟨e, he⟩ := insertTxnRowsError ts db.transactions h
    have hne : ¬ (ts.length = 0) := by
      intro h0
      rcases ts with _ | ⟨t, rest⟩
      · rcases h with h | ⟨t, ht, _⟩
        · exact absurd List.nodup_nil h
        · exact absurd ht (List.not_mem_nil t)
      · exact absurd h0 (by simp)
    unfold InsertTransactions
    rw [if_neg hne, he]
    exact ⟨rfl, rfl⟩
  · intro n hn
    unfold InsertTransactions at hn
    by_cases h0 : ts.length = 0
    · rw [if_pos h0] at hn
      have : (0 : Nat) = n := Except.ok.inj hn
      omega
    · rw [if_neg h0] at hn
      cases he : insertTxnRows db.transactions ts with
      | error e =>
        rw [he] at hn
        exact absurd hn (by simp)
      | ok rows =>
        rw [he] at hn
        exact (Except.ok.inj hn).symm

/-- Witness for C3: a two-element batch sharing one id is rejected and leaves
the empty store empty. -/
theorem insertTransactions_atomic_witness :
    (InsertTransactions ⟨[], []⟩
        [⟨uuidT, uuidU, uuidM, "5812", 100, 50⟩, ⟨uuidT, uuidU, uuidM, "5814", 200, 60⟩]).1 =
        ⟨[], []⟩ ∧
      exceptIsError (InsertTransactions ⟨[], []⟩
        [⟨uuidT, uuidU, uuidM, "5812", 100, 50⟩, ⟨uuidT, uuidU, uuidM, "5814", 200, 60⟩]).2 = true :=
  (insertTransactions_atomic _ _).1 (Or.inl (by decide))

/-- C9: the service-level batch guards reject an empty batch and a batch of
more than 1000 transactions with an error, before any store write. -/
theorem createTransactions_guard (db : DB) (clock : GoClock) (ts : List Transaction)
    (h : ts.length = 0 ∨ ts.length > 1000) :
    (CreateTransactions db clock ts).1 = db ∧
      exceptIsError (CreateTransactions db clock ts).2 = true := by
  unfold CreateTransactions
  rcases h with h | h
  · rw [if_pos h]
    exact ⟨rfl, rfl⟩
  · have h0 : ¬ (ts.length = 0) := by omega
    rw [if_neg h0, if_pos h]
    exact ⟨rfl, rfl⟩

/-- Witness for C9: the empty batch is rejected on the empty store. -/
theorem createTransactions_guard_witness :
    (CreateTransactions ⟨[], []⟩ ⟨0, 0⟩ []).1 = ⟨[], []⟩ ∧
      exceptIsError (CreateTransactions ⟨[], []⟩ ⟨0, 0⟩ []).2 = true :=
  createTransactions_guard _ _ _ (Or.inl rfl)

/-- In a table with unique ids containing the key, replacing the row keyed by
`offer.ID` leaves exactly that one row matching the key, and it is `offer`. -/
theorem replaceFilterId (offer : Offer) :
    ∀ l : List Offer, (l.map Offer.ID).Nodup → l.any (fun r => r.ID == offer.ID) = true →
      (l.map (fun r => if r.ID == offer.ID then offer else r)).filter
          (fun r => r.ID == offer.ID) = [offer] := by
  intro l
  induction l with
  | nil => intro _ hany; simp at hany
  | cons a t ih =>
    intro hnd hany
    by_cases h : a.ID = offer.ID
    · have hnotin : ∀ r ∈ t, ¬ (r.ID = offer.ID) := by
        intro r hr heq
        have hmem : a.ID ∈ t.map Offer.ID :=
          List.mem_map.mpr ⟨r, hr, by rw [heq, h]⟩
        exact (List.nodup_cons.mp hnd).1 hmem
      have hmap : t.map (fun r => if r.ID == offer.ID then offer else r) = t := by
        have hpt : ∀ r ∈ t, (if r.ID == offer.ID then offer else r) = id r := by
          intro r hr
          simp [hnotin r hr]
        rw [List.map_congr_left hpt, List.map_id]
      have hfil : t.filter (fun r => r.ID == offer.ID) = [] := by
        rw [List.filter_eq_nil_iff]
        intro r hr
        simp [hnotin r hr]
      simp only [List.map_cons, hmap, List.filter_cons]
      simp [h, hfil]
    · have hany2 : t.any (fun r => r.ID == offer.ID) = true := by
        simp only [List.any_cons, Bool.or_eq_true] at hany
        rcases hany with h1 | h1
        · exact absurd (beq_iff_eq.mp h1) h
        · exact h1
      have ihx := ih (List.nodup_cons.mp hnd).2 hany2
      simp only [List.map_cons, List.filter_cons]
      simp only [beq_iff_eq] at ihx ⊢
      simp [h, ihx]

/-- After an upsert on a table with unique ids, exactly one row carries the
upserted id and it is the upserted offer. -/
theorem upsertFilterId (db : DB) (offer : Offer)
    (hnd : (db.offers.map Offer.ID).Nodup) :
    (UpsertOffer db offer).offers.filter (fun r => r.ID == offer.ID) = [offer] := by
  unfold UpsertOffer
  by_cases hany : db.offers.any (fun r => r.ID == offer.ID) = true
  · rw [if_pos hany]
    exact replaceFilterId offer db.offers hnd hany
  · rw [if_neg hany]
    have hnone : db.offers.filter (fun r => r.ID == offer.ID) = [] := by
      rw [List.filter_eq_nil_iff]
      intro r hr hbeq
      exact hany (List.any_eq_true.mpr ⟨r, hr, hbeq⟩)
    simp [List.filter_append, hnone]

/-- C4: upserting a valid active offer makes GetActiveOffers, at any instant
inside the validity window (both bounds inclusive), return exactly one offer
with that id, with all fields equal to the upserted offer. -/
theorem upsert_then_getActiveOffers (db : DB) (offer : Offer) (now : GoTime)
    (_hv : ValidateOffer offer = none) (ha : offer.Active = true)
    (h1 : offer.StartsAt ≤ now) (h2 : now ≤ offer.EndsAt)
    (hnd : (db.offers.map Offer.ID).Nodup) :
    (GetActiveOffers (UpsertOffer db offer) now).filter (fun r => r.ID == offer.ID) = [offer] := by
  unfold GetActiveOffers
  rw [List.filter_filter]
  have hcomm : ((UpsertOffer db offer).offers.filter
      (fun a => (a.ID == offer.ID) &&
        (a.Active && decide (a.StartsAt ≤ now) && decide (a.EndsAt ≥ now)))) =
      ((UpsertOffer db offer).offers.filter
        (fun a => (a.Active && decide (a.StartsAt ≤ now) && decide (a.EndsAt ≥ now)) &&
          (a.ID == offer.ID))) :=
    List.filter_congr (fun a _ => Bool.and_comm _ _)
  rw [hcomm, ← List.filter_filter, upsertFilterId db offer hnd]
  simp [List.filter_cons, ha, h1, h2]

/-- Witness for C4 at a concrete valid offer, store and instant. -/
theorem upsert_then_getActiveOffers_witness :
    (GetActiveOffers (UpsertOffer ⟨[], []⟩ ⟨uuidO, uuidM, ["5812"], true, 3, 30, 100, 200⟩) 150).filter
        (fun r => r.ID == uuidO) = [⟨uuidO, uuidM, ["5812"], true, 3, 30, 100, 200⟩] :=
  upsert_then_getActiveOffers ⟨[], []⟩ ⟨uuidO, uuidM, ["5812"], true, 3, 30, 100, 200⟩ 150
    (by decide) rfl (by decide) (by decide) (by decide)

/-- One loop step appends exactly the entry `eligEntry` produces. -/
theorem eligStep_eq_entry (db : DB) (userID : String) (now : GoTime)
    (acc : Option (List EligibleOffer)) (offer : Offer) :
    eligStep db userID now acc offer =
      match eligEntry db userID now offer with
      | some e => goAppend acc e
      | none => acc := by
  unfold eligStep eligEntry
  by_cases h : offer.MinTxnCount ≤ (CountMatchingTransactions db userID offer now : Int)
  · simp only [if_pos h]
  · simp only [if_neg h]

/-- The elements accumulated by the eligibility loop are the accumulator's
elements followed by the entries of the offers, in discovery order. -/
theorem eligFold_elems (db : DB) (userID : String) (now : GoTime) :
    ∀ (l : List Offer) (acc : Option (List EligibleOffer)),
      goElems (l.foldl (eligStep db userID now) acc) =
        goElems acc ++ l.filterMap (eligEntry db userID now) := by
  intro l
  induction l with
  | nil => intro acc; simp
  | cons a t ih =>
    intro acc
    rw [List.foldl_cons, ih, List.filterMap_cons]
    rw [eligStep_eq_entry]
    cases he : eligEntry db userID now a with
    | none => simp
    | some e =>
      cases acc with
      | none => simp [goAppend, goElems]
      | some accl => simp [goAppend, goElems]

/-- Once the accumulator slice is non-nil it stays non-nil through the loop. -/
theorem eligFold_some (db : DB) (userID : String) (now : GoTime) :
    ∀ (l : List Offer) (init : List EligibleOffer),
      ∃ out, l.foldl (eligStep db userID now) (some init) = some out := by
  intro l
  induction l with
  | nil => intro init; exact ⟨init, rfl⟩
  | cons a t ih =>
    intro init
    rw [List.foldl_cons, eligStep_eq_entry]
    cases he : eligEntry db userID now a with
    | none => exact ih init
    | some e => exact ih (init ++ [e])

/-- The loop leaves the slice nil exactly when no offer contributes an entry. -/
theorem eligFold_none_iff (db : DB) (userID : String) (now : GoTime) :
    ∀ l : List Offer,
      l.foldl (eligStep db userID now) none = none ↔
        ∀ o ∈ l, eligEntry db userID now o = none := by
  intro l
  induction l with
  | nil => simp
  | cons a t ih =>
    rw [List.foldl_cons, eligStep_eq_entry]
    cases he : eligEntry db userID now a with
    | none =>
      rw [ih]
      constructor
      · intro h o ho
        rcases List.mem_cons.mp ho with rfl | ho2
        · exact he
        · exact h o ho2
      · intro h o ho
        exact h o (List.mem_cons_of_mem a ho)
    | some e =>
      simp only [goAppend]
      obtain ⟨out, hout⟩ := eligFold_some db userID now t [e]
      rw [hout]
      constructor
      · intro h; cases h
      · intro h
        have := h a (List.mem_cons_self a t)
        rw [he] at this
        cases this

/-- On success, GetEligibleOffers returns the requested user id and the folded
slice of verdicts over the active offers. -/
theorem getEligibleOffers_ok (db : DB) (userID : String) (now : GoTime)
    (resp : EligibleOffersResponse)
    (hok : GetEligibleOffers db userID now = Except.ok resp) :
    resp.UserID = userID ∧
      resp.EligibleOffers =
        (GetActiveOffers db now).foldl (eligStep db userID now)
          (none : Option (List EligibleOffer)) := by
  unfold GetEligibleOffers at hok
  cases hu : ValidateUUID userID "user_id" with
  | some e =>
    rw [hu] at hok
    cases hok
  | none =>
    rw [hu] at hok
    have := Except.ok.inj hok
    rw [← this]
    exact ⟨rfl, rfl⟩

/-- C2: on a store whose offer ids are unique, an active offer appears in the
eligible set exactly when the matching count reaches its threshold; an active
offer with a zero threshold is always eligible. -/
theorem getEligibleOffers_iff_threshold (db : DB) (userID : String) (now : GoTime)
    (resp : EligibleOffersResponse)
    (hok : GetEligibleOffers db userID now = Except.ok resp)
    (hnd : (db.offers.map Offer.ID).Nodup)
    (o : Offer) (ho : o ∈ GetActiveOffers db now) :
    ((∃ e ∈ goElems resp.EligibleOffers, e.OfferID = o.ID) ↔
        o.MinTxnCount ≤ (CountMatchingTransactions db userID o now : Int)) ∧
      (o.MinTxnCount = 0 → ∃ e ∈ goElems resp.EligibleOffers, e.OfferID = o.ID) := by
  obtain ⟨-, hlist⟩ := getEligibleOffers_ok db userID now resp hok
  have helems : goElems resp.EligibleOffers =
      (GetActiveOffers db now).filterMap (eligEntry db userID now) := by
    rw [hlist, eligFold_elems]
    simp [goElems]
  have hsub : (GetActiveOffers db now).Sublist db.offers := by
    unfold GetActiveOffers
    exact List.filter_sublist _
  have hndActive : ((GetActiveOffers db now).map Offer.ID).Nodup :=
    List.Nodup.sublist (List.Sublist.map Offer.ID hsub) hnd
  have hiff : (∃ e ∈ goElems resp.EligibleOffers, e.OfferID = o.ID) ↔
      o.MinTxnCount ≤ (CountMatchingTransactions db userID o now : Int) := by
    constructor
    · rintro ⟨e, he, hid⟩
      rw [helems] at he
      obtain ⟨o2, ho2, hent⟩ := List.mem_filterMap.mp he
      unfold eligEntry at hent
      by_cases hcond : o2.MinTxnCount ≤ (CountMatchingTransactions db userID o2 now : Int)
      · simp only [if_pos hcond] at hent
        have hEeq := Option.some.inj hent
        have hid2 : o2.ID = o.ID := by
          rw [← hEeq] at hid
          exact hid
        have ho2o : o2 = o := List.inj_on_of_nodup_map hndActive ho2 ho hid2
        rw [← ho2o]
        exact hcond
      · simp only [if_neg hcond] at hent
        cases hent
    · intro hge
      refine ⟨⟨o.ID, reasonString o.MinTxnCount o.LookbackDays
        (CountMatchingTransactions db userID o now)⟩, ?_, rfl⟩
      rw [helems]
      apply List.mem_filterMap.mpr
      refine ⟨o, ho, ?_⟩
      unfold eligEntry
      simp only [if_pos hge]
  refine ⟨hiff, fun h0 => hiff.mpr ?_⟩
  rw [h0]
  exact Int.natCast_nonneg _

/-- Witness for C2: the zero-threshold active offer is eligible for a user
with no transactions at all. -/
theorem getEligibleOffers_iff_threshold_witness :
    ∃ e ∈ goElems respZ.EligibleOffers, e.OfferID = offerZ.ID :=
  (getEligibleOffers_iff_threshold dbZ uuidU 500 respZ (by decide) (by decide)
    offerZ (by decide)).2 rfl

/-- C8: every entry of the eligible list carries the exact Sprintf reason for
its offer, with the threshold, window length and observed count substituted
in decimal; in particular the 3-of-30 example renders verbatim. -/
theorem getEligibleOffers_reason (db : DB) (userID : String) (now : GoTime)
    (resp : EligibleOffersResponse)
    (hok : GetEligibleOffers db userID now = Except.ok resp) :
    (∀ e ∈ goElems resp.EligibleOffers,
        ∃ o ∈ GetActiveOffers db now,
          e.OfferID = o.ID ∧
            e.Reason = reasonString o.MinTxnCount o.LookbackDays
              (CountMatchingTransactions db userID o now)) ∧
      reasonString 3 30 3 = ">= 3 matching transactions in last 30 days (found 3)" := by
  obtain ⟨-, hlist⟩ := getEligibleOffers_ok db userID now resp hok
  have helems : goElems resp.EligibleOffers =
      (GetActiveOffers db now).filterMap (eligEntry db userID now) := by
    rw [hlist, eligFold_elems]
    simp [goElems]
  constructor
  · intro e he
    rw [helems] at he
    obtain ⟨o, ho, hent⟩ := List.mem_filterMap.mp he
    refine ⟨o, ho, ?_⟩
    unfold eligEntry at hent
    by_cases hcond : o.MinTxnCount ≤ (CountMatchingTransactions db userID o now : Int)
    · simp only [if_pos hcond] at hent
      have hEeq := Option.some.inj hent
      rw [← hEeq]
      exact ⟨rfl, rfl⟩
    · simp only [if_neg hcond] at hent
      cases hent
  · decide

/-- Witness for C8 at the concrete zero-threshold scenario. -/
theorem getEligibleOffers_reason_witness :
    ∃ o ∈ GetActiveOffers dbZ 500,
      (⟨uuidO, ">= 0 matching transactions in last 30 days (found 0)"⟩ : EligibleOffer).OfferID = o.ID ∧
        (⟨uuidO, ">= 0 matching transactions in last 30 days (found 0)"⟩ : EligibleOffer).Reason =
          reasonString o.MinTxnCount o.LookbackDays (CountMatchingTransactions dbZ uuidU o 500) :=
  (getEligibleOffers_reason dbZ uuidU 500 respZ (by decide)).1
    ⟨uuidO, ">= 0 matching transactions in last 30 days (found 0)"⟩ (by decide)

/-- C5: evaluated at the failing input (an empty offer store and a valid user
id), GetEligibleOffers succeeds with `EligibleOffers` equal to the nil slice
(`none`, which encoding/json serializes as JSON null), not the non-nil empty
list the claim and the repository README's empty-response example promise. -/
theorem getEligibleOffers_null_on_empty :
    GetEligibleOffers ⟨[], []⟩ uuidU 0 = Except.ok ⟨uuidU, none⟩ ∧
      (Option.isNone (none : Option (List EligibleOffer))) = true := by
  exact ⟨by decide, rfl⟩

/-- Shape of a successful GetEligibleOffers result: the eligible list is the
per-offer verdicts in the evaluator's discovery order, and when no offer
qualifies the slice stays nil (JSON null), never a non-nil empty list. -/
theorem getEligibleOffers_nil_slice (db : DB) (userID : String) (now : GoTime)
    (resp : EligibleOffersResponse)
    (hok : GetEligibleOffers db userID now = Except.ok resp) :
    goElems resp.EligibleOffers =
        (GetActiveOffers db now).filterMap (eligEntry db userID now) ∧
      ((∀ o ∈ GetActiveOffers db now,
          ¬ (o.MinTxnCount ≤ (CountMatchingTransactions db userID o now : Int))) →
        resp.EligibleOffers = none) := by
  obtain ⟨-, hlist⟩ := getEligibleOffers_ok db userID now resp hok
  constructor
  · rw [hlist, eligFold_elems]
    simp [goElems]
  · intro h
    rw [hlist]
    apply (eligFold_none_iff db userID now (GetActiveOffers db now)).mpr
    intro o ho
    unfold eligEntry
    simp only [if_neg (h o ho)]

/-- Witness for C5 (amended): the empty store yields the nil slice. -/
theorem getEligibleOffers_nil_slice_witness :
    (⟨uuidU, none⟩ : EligibleOffersResponse).EligibleOffers = none :=
  (getEligibleOffers_nil_slice ⟨[], []⟩ uuidU 0 ⟨uuidU, none⟩ (by decide)).2
    (fun o ho => absurd ho (List.not_mem_nil o))

/-- ValidateUUID succeeds exactly on well-formed UUID v4 strings. -/
theorem validateUUID_none_iff (s f : String) :
    ValidateUUID s f = none ↔ uuidWellFormed s = true := by
  unfold ValidateUUID uuidWellFormed
  by_cases h0 : s = ""
  · simp [h0]
  · by_cases h1 : uuidRegexMatch (goToLower (SanitizeString s)) = true
    · simp [h0, h1]
    · simp [h0, h1]

/-- A ValidateUUID failure reports the supplied field name. -/
theorem validateUUID_some_field (s f : String) (e : ValidationError)
    (h : ValidateUUID s f = some e) : e.field = f := by
  unfold ValidateUUID at h
  by_cases h0 : s = ""
  · rw [if_pos h0] at h
    rw [← Option.some.inj h]
  · rw [if_neg h0] at h
    by_cases h1 : uuidRegexMatch (goToLower (SanitizeString s)) = true
    · rw [if_pos h1] at h
      cases h
    · rw [if_neg h1] at h
      rw [← Option.some.inj h]

/-- validateMCC succeeds exactly on well-formed MCC codes. -/
theorem validateMCC_none_iff (m : String) :
    validateMCC m = none ↔ mccWellFormed m = true := by
  unfold validateMCC mccWellFormed
  by_cases h0 : m = ""
  · simp [h0]
  · by_cases h1 : mccRegexMatch (SanitizeString m) = true
    · simp [h0, h1]
    · simp [h0, h1]

/-- The whitelist loop succeeds exactly when every remaining code is
well-formed, the remainder has no internal duplicate, and no remaining code
was already seen. -/
theorem validateMCCLoop_none_iff :
    ∀ (l : List String) (i : Nat) (seen : List String),
      validateMCCLoop l i seen = none ↔
        (∀ m ∈ l, mccWellFormed m = true) ∧ l.Nodup ∧ ∀ m ∈ l, m ∉ seen := by
  intro l
  induction l with
  | nil => intro i seen; simp [validateMCCLoop]
  | cons m rest ih =>
    intro i seen
    cases hv : validateMCC m with
    | some err =>
      simp only [validateMCCLoop, hv]
      constructor
      · intro h; cases h
      · rintro ⟨hall, -, -⟩
        have hwfm := hall m (List.mem_cons_self m rest)
        rw [(validateMCC_none_iff m).mpr hwfm] at hv
        cases hv
    | none =>
      have hwf : mccWellFormed m = true := (validateMCC_none_iff m).mp hv
      simp only [validateMCCLoop, hv]
      by_cases hmem : m ∈ seen
      · rw [if_pos hmem]
        constructor
        · intro h; cases h
        · rintro ⟨-, -, hnos⟩
          exact absurd hmem (hnos m (List.mem_cons_self m rest))
      · rw [if_neg hmem]
        rw [ih (i + 1) (m :: seen)]
        constructor
        · rintro ⟨hall, hnd, hnos⟩
          refine ⟨?_, ?_, ?_⟩
          · intro x hx
            rcases List.mem_cons.mp hx with rfl | hx2
            · exact hwf
            · exact hall x hx2
          · apply List.nodup_cons.mpr
            refine ⟨?_, hnd⟩
            intro hmr
            exact (hnos m hmr) (List.mem_cons_self m seen)
          · intro x hx
            rcases List.mem_cons.mp hx with rfl | hx2
            · exact hmem
            · intro hxseen
              exact (hnos x hx2) (List.mem_cons_of_mem m hxseen)
        · rintro ⟨hall, hnd, hnos⟩
          obtain ⟨hmnr, hndrest⟩ := List.nodup_cons.mp hnd
          refine ⟨fun x hx => hall x (List.mem_cons_of_mem m hx), hndrest, ?_⟩
          intro x hx hxmseen
          rcases List.mem_cons.mp hxmseen with rfl | hxseen
          · exact hmnr hx
          · exact (hnos x (List.mem_cons_of_mem m hx)) hxseen

/-- A whitelist-loop failure reports a whitelist field. -/
theorem validateMCCLoop_some_field :
    ∀ (l : List String) (i : Nat) (seen : List String) (e : ValidationError),
      validateMCCLoop l i seen = some e →
        e.field = "mcc_whitelist" ∨
          ∃ j : Nat, e.field = "mcc_whitelist[" ++ toString j ++ "]" := by
  intro l
  induction l with
  | nil =>
    intro i seen e h
    simp [validateMCCLoop] at h
  | cons m rest ih =>
    intro i seen e h
    simp only [validateMCCLoop] at h
    cases hv : validateMCC m with
    | some err =>
      rw [hv] at h
      rw [← Option.some.inj h]
      exact Or.inr ⟨i, rfl⟩
    | none =>
      rw [hv] at h
      by_cases hmem : m ∈ seen
      · rw [if_pos hmem] at h
        rw [← Option.some.inj h]
        exact Or.inl rfl
      · rw [if_neg hmem] at h
        exact ih (i + 1) (m :: seen) e h

/-- validateMCCWhitelist succeeds exactly when C6's InvalidWhitelist condition
is absent. -/
theorem validateMCCWhitelist_none_iff (wl : List String) :
    validateMCCWhitelist wl = none ↔ badWhitelistList wl = false := by
  unfold validateMCCWhitelist
  by_cases h0 : wl.length = 0
  · rw [if_pos h0]
    have hnil : wl = [] := List.length_eq_zero.mp h0
    subst hnil
    simp [badWhitelistList]
  · rw [if_neg h0]
    by_cases h1 : wl.length > 100
    · rw [if_pos h1]
      constructor
      · intro h; cases h
      · intro hbad
        exfalso
        have hbt : badWhitelistList wl = true := by
          unfold badWhitelistList
          simp [h1]
        rw [hbt] at hbad
        cases hbad
    · rw [if_neg h1]
      rw [validateMCCLoop_none_iff]
      unfold badWhitelistList
      constructor
      · rintro ⟨hall, hnd, -⟩
        simp only [Bool.or_eq_false_iff]
        refine ⟨⟨?_, ?_⟩, ?_⟩
        · rw [List.any_eq_false]
          intro x hx
          simp [hall x hx]
        · simp [h1]
        · simp [hnd]
      · intro hbad
        simp only [Bool.or_eq_false_iff] at hbad
        obtain ⟨⟨hany, -⟩, hnd⟩ := hbad
        refine ⟨?_, ?_, ?_⟩
        · intro x hx
          have := (List.any_eq_false.mp hany) x hx
          simpa using this
        · simpa using hnd
        · intro x hx
          exact List.not_mem_nil x

/-- A validateMCCWhitelist failure reports a whitelist field. -/
theorem validateMCCWhitelist_some_field (wl : List String) (e : ValidationError)
    (h : validateMCCWhitelist wl = some e) :
    e.field = "mcc_whitelist" ∨
      ∃ j : Nat, e.field = "mcc_whitelist[" ++ toString j ++ "]" := by
  unfold validateMCCWhitelist at h
  by_cases h0 : wl.length = 0
  · rw [if_pos h0] at h
    cases h
  · rw [if_neg h0] at h
    by_cases h1 : wl.length > 100
    · rw [if_pos h1] at h
      rw [← Option.some.inj h]
      exact Or.inl rfl
    · rw [if_neg h1] at h
      exact validateMCCLoop_some_field wl 0 [] e h

/-- C6: ValidateOffer fails exactly when one of the claim's four condition
groups holds and succeeds otherwise; on failure the reported field names the
group, in the source's priority order: id / merchant_id (InvalidIdentifier),
a mcc_whitelist field (InvalidWhitelist), min_txn_count / lookback_days
(InvalidThreshold), starts_at / ends_at (InvalidWindow).  The check is a pure
function of the offer. -/
theorem validateOffer_classification (o : Offer) :
    (ValidateOffer o = none ↔
        badIdentifier o = false ∧ badWhitelist o = false ∧
          badThreshold o = false ∧ badWindow o = false) ∧
      (badIdentifier o = true →
        ∃ e, ValidateOffer o = some e ∧ (e.field = "id" ∨ e.field = "merchant_id")) ∧
      (badIdentifier o = false → badWhitelist o = true →
        ∃ e, ValidateOffer o = some e ∧
          (e.field = "mcc_whitelist" ∨
            ∃ j : Nat, e.field = "mcc_whitelist[" ++ toString j ++ "]")) ∧
      (badIdentifier o = false → badWhitelist o = false → badThreshold o = true →
        ∃ e, ValidateOffer o = some e ∧
          (e.field = "min_txn_count" ∨ e.field = "lookback_days")) ∧
      (badIdentifier o = false → badWhitelist o = false → badThreshold o = false →
        badWindow o = true →
        ∃ e, ValidateOffer o = some e ∧
          (e.field = "starts_at" ∨ e.field = "ends_at")) := by
  cases hid : ValidateUUID o.ID "id" with
  | some e1 =>
    have hV : ValidateOffer o = some e1 := by
      unfold ValidateOffer
      rw [hid]
    have hwfid : uuidWellFormed o.ID = false := by
      cases hc : uuidWellFormed o.ID with
      | false => rfl
      | true =>
        rw [(validateUUID_none_iff o.ID "id").mpr hc] at hid
        cases hid
    have hbi : badIdentifier o = true := by simp [badIdentifier, hwfid]
    have hf := validateUUID_some_field o.ID "id" e1 hid
    refine ⟨?_, ?_, ?_, ?_, ?_⟩
    · rw [hV]
      constructor
      · intro hx; cases hx
      · rintro ⟨h1, -, -, -⟩
        rw [hbi] at h1
        cases h1
    · intro _
      exact ⟨e1, hV, Or.inl hf⟩
    · intro habs _
      rw [hbi] at habs
      cases habs
    · intro habs _ _
      rw [hbi] at habs
      cases habs
    · intro habs _ _ _
      rw [hbi] at habs
      cases habs
  | none =>
    have hwfid : uuidWellFormed o.ID = true := (validateUUID_none_iff o.ID "id").mp hid
    cases hmid : ValidateUUID o.MerchantID "merchant_id" with
    | some e2 =>
      have hV : ValidateOffer o = some e2 := by
        unfold ValidateOffer
        rw [hid, hmid]
      have hwfm : uuidWellFormed o.MerchantID = false := by
        cases hc : uuidWellFormed o.MerchantID with
        | false => rfl
        | true =>
          rw [(validateUUID_none_iff o.MerchantID "merchant_id").mpr hc] at hmid
          cases hmid
      have hbi : badIdentifier o = true := by simp [badIdentifier, hwfm]
      have hf := validateUUID_some_field o.MerchantID "merchant_id" e2 hmid
      refine ⟨?_, ?_, ?_, ?_, ?_⟩
      · rw [hV]
        constructor
        · intro hx; cases hx
        · rintro ⟨h1, -, -, -⟩
          rw [hbi] at h1
          cases h1
      · intro _
        exact ⟨e2, hV, Or.inr hf⟩
      · intro habs _
        rw [hbi] at habs
        cases habs
      · intro habs _ _
        rw [hbi] at habs
        cases habs
      · intro habs _ _ _
        rw [hbi] at habs
        cases habs
    | none =>
      have hwfm : uuidWellFormed o.MerchantID = true :=
        (validateUUID_none_iff o.MerchantID "merchant_id").mp hmid
      have hbi : badIdentifier o = false := by simp [badIdentifier, hwfid, hwfm]
      cases hwl : validateMCCWhitelist o.MCCWhitelist with
      | some e3 =>
        have hV : ValidateOffer o = some e3 := by
          unfold ValidateOffer
          rw [hid, hmid, hwl]
        have hbw : badWhitelist o = true := by
          cases hbwc : badWhitelist o with
          | true => rfl
          | false =>
            have hnone : validateMCCWhitelist o.MCCWhitelist = none :=
              (validateMCCWhitelist_none_iff o.MCCWhitelist).mpr
                (by simpa [badWhitelist] using hbwc)
            rw [hnone] at hwl
            cases hwl
        have hf := validateMCCWhitelist_some_field o.MCCWhitelist e3 hwl
        refine ⟨?_, ?_, ?_, ?_, ?_⟩
        · rw [hV]
          constructor
          · intro hx; cases hx
          · rintro ⟨-, h2, -, -⟩
            rw [hbw] at h2
            cases h2
        · intro habs
          rw [hbi] at habs
          cases habs
        · intro _ _
          exact ⟨e3, hV, hf⟩
        · intro _ habs _
          rw [hbw] at habs
          cases habs
        · intro _ habs _ _
          rw [hbw] at habs
          cases habs
      | none =>
        have hbw : badWhitelist o = false := by
          have := (validateMCCWhitelist_none_iff o.MCCWhitelist).mp hwl
          simpa [badWhitelist] using this
        by_cases c1 : o.MinTxnCount < 0
        · have hV : ValidateOffer o = some ⟨"min_txn_count", "must be non-negative"⟩ := by
            unfold ValidateOffer
            rw [hid, hmid, hwl, if_pos c1]
          have hbt : badThreshold o = true := by simp [badThreshold, c1]
          refine ⟨?_, ?_, ?_, ?_, ?_⟩
          · rw [hV]
            constructor
            · intro hx; cases hx
            · rintro ⟨-, -, h3, -⟩
              rw [hbt] at h3
              cases h3
          · intro habs
            rw [hbi] at habs
            cases habs
          · intro _ habs
            rw [hbw] at habs
            cases habs
          · intro _ _ _
            exact ⟨⟨"min_txn_count", "must be non-negative"⟩, hV, Or.inl rfl⟩
          · intro _ _ habs _
            rw [hbt] at habs
            cases habs
        · by_cases c2 : o.LookbackDays < 0
          · have hV : ValidateOffer o = some ⟨"lookback_days", "must be non-negative"⟩ := by
              unfold ValidateOffer
              rw [hid, hmid, hwl, if_neg c1, if_pos c2]
            have hbt : badThreshold o = true := by simp [badThreshold, c2]
            refine ⟨?_, ?_, ?_, ?_, ?_⟩
            · rw [hV]
              constructor
              · intro hx; cases hx
              · rintro ⟨-, -, h3, -⟩
                rw [hbt] at h3
                cases h3
            · intro habs
              rw [hbi] at habs
              cases habs
            · intro _ habs
              rw [hbw] at habs
              cases habs
            · intro _ _ _
              exact ⟨⟨"lookback_days", "must be non-negative"⟩, hV, Or.inr rfl⟩
            · intro _ _ habs _
              rw [hbt] at habs
              cases habs
          · by_cases c3 : o.LookbackDays > 365
            · have hV : ValidateOffer o = some ⟨"lookback_days", "cannot exceed 365 days"⟩ := by
                unfold ValidateOffer
                rw [hid, hmid, hwl, if_neg c1, if_neg c2, if_pos c3]
              have hbt : badThreshold o = true := by simp [badThreshold, c3]
              refine ⟨?_, ?_, ?_, ?_, ?_⟩
              · rw [hV]
                constructor
                · intro hx; cases hx
                · rintro ⟨-, -, h3, -⟩
                  rw [hbt] at h3
                  cases h3
              · intro habs
                rw [hbi] at habs
                cases habs
              · intro _ habs
                rw [hbw] at habs
                cases habs
              · intro _ _ _
                exact ⟨⟨"lookback_days", "cannot exceed 365 days"⟩, hV, Or.inr rfl⟩
              · intro _ _ habs _
                rw [hbt] at habs
                cases habs
            · have hbt : badThreshold o = false := by simp [badThreshold, c1, c2, c3]
              by_cases c4 : o.StartsAt = goZeroTime
              · have hV : ValidateOffer o = some ⟨"starts_at", "is required"⟩ := by
                  unfold ValidateOffer
                  rw [hid, hmid, hwl, if_neg c1, if_neg c2, if_neg c3, if_pos c4]
                have hbwin : badWindow o = true := by simp [badWindow, c4]
                refine ⟨?_, ?_, ?_, ?_, ?_⟩
                · rw [hV]
                  constructor
                  · intro hx; cases hx
                  · rintro ⟨-, -, -, h4⟩
                    rw [hbwin] at h4
                    cases h4
                · intro habs
                  rw [hbi] at habs
                  cases habs
                · intro _ habs
                  rw [hbw] at habs
                  cases habs
                · intro _ _ habs
                  rw [hbt] at habs
                  cases habs
                · intro _ _ _ _
                  exact ⟨⟨"starts_at", "is required"⟩, hV, Or.inl rfl⟩
              · by_cases c5 : o.EndsAt = goZeroTime
                · have hV : ValidateOffer o = some ⟨"ends_at", "is required"⟩ := by
                    unfold ValidateOffer
                    rw [hid, hmid, hwl, if_neg c1, if_neg c2, if_neg c3, if_neg c4, if_pos c5]
                  have hbwin : badWindow o = true := by simp [badWindow, c5]
                  refine ⟨?_, ?_, ?_, ?_, ?_⟩
                  · rw [hV]
                    constructor
                    · intro hx; cases hx
                    · rintro ⟨-, -, -, h4⟩
                      rw [hbwin] at h4
                      cases h4
                  · intro habs
                    rw [hbi] at habs
                    cases habs
                  · intro _ habs
                    rw [hbw] at habs
                    cases habs
                  · intro _ _ habs
                    rw [hbt] at habs
                    cases habs
                  · intro _ _ _ _
                    exact ⟨⟨"ends_at", "is required"⟩, hV, Or.inr rfl⟩
                · by_cases c6 : o.StartsAt < o.EndsAt
                  · by_cases c7 : o.EndsAt - o.StartsAt > twoYearsSeconds
                    · have hV : ValidateOffer o =
                          some ⟨"ends_at", "offer duration cannot exceed 2 years"⟩ := by
                        unfold ValidateOffer
                        rw [hid, hmid, hwl, if_neg c1, if_neg c2, if_neg c3, if_neg c4,
                          if_neg c5, if_neg (not_not_intro c6), if_pos c7]
                      have hbwin : badWindow o = true := by simp [badWindow, c7]
                      refine ⟨?_, ?_, ?_, ?_, ?_⟩
                      · rw [hV]
                        constructor
                        · intro hx; cases hx
                        · rintro ⟨-, -, -, h4⟩
                          rw [hbwin] at h4
                          cases h4
                      · intro habs
                        rw [hbi] at habs
                        cases habs
                      · intro _ habs
                        rw [hbw] at habs
                        cases habs
                      · intro _ _ habs
                        rw [hbt] at habs
                        cases habs
                      · intro _ _ _ _
                        exact ⟨⟨"ends_at", "offer duration cannot exceed 2 years"⟩, hV, Or.inr rfl⟩
                    · have hV : ValidateOffer o = none := by
                        unfold ValidateOffer
                        rw [hid, hmid, hwl, if_neg c1, if_neg c2, if_neg c3, if_neg c4,
                          if_neg c5, if_neg (not_not_intro c6), if_neg c7]
                      have hbwin : badWindow o = false := by simp [badWindow, c4, c5, c6, c7]
                      refine ⟨?_, ?_, ?_, ?_, ?_⟩
                      · rw [hV]
                        simp [hbi, hbw, hbt, hbwin]
                      · intro habs
                        rw [hbi] at habs
                        cases habs
                      · intro _ habs
                        rw [hbw] at habs
                        cases habs
                      · intro _ _ habs
                        rw [hbt] at habs
                        cases habs
                      · intro _ _ _ habs
                        rw [hbwin] at habs
                        cases habs
                  · have hV : ValidateOffer o = some ⟨"starts_at", "must be before ends_at"⟩ := by
                      unfold ValidateOffer
                      rw [hid, hmid, hwl, if_neg c1, if_neg c2, if_neg c3, if_neg c4,
                        if_neg c5, if_pos c6]
                    have hbwin : badWindow o = true := by simp [badWindow, c6]
                    refine ⟨?_, ?_, ?_, ?_, ?_⟩
                    · rw [hV]
                      constructor
                      · intro hx; cases hx
                      · rintro ⟨-, -, -, h4⟩
                        rw [hbwin] at h4
                        cases h4
                    · intro habs
                      rw [hbi] at habs
                      cases habs
                    · intro _ habs
                      rw [hbw] at habs
                      cases habs
                    · intro _ _ habs
                      rw [hbt] at habs
                      cases habs
                    · intro _ _ _ _
                      exact ⟨⟨"starts_at", "must be before ends_at"⟩, hV, Or.inl rfl⟩

/-- Witness for C6 at a concrete offer whose merchant id is malformed. -/
theorem validateOffer_classification_witness :
    ∃ e, ValidateOffer ⟨uuidO, "not-a-uuid", [], true, 0, 30, 100, 200⟩ = some e ∧
      (e.field = "id" ∨ e.field = "merchant_id") :=
  (validateOffer_classification ⟨uuidO, "not-a-uuid", [], true, 0, 30, 100, 200⟩).2.1 (by decide)
